import Mathlib

/-!
Verification development for the `electron-drive` repository.

The definitions below are a shallow embedding of the JavaScript sources:
* `src/unnamed/part_000` — renderer-side `ArcElectronDrive` (request correlator),
* `src/unnamed/part_001` — main-process `DriveExport` (newest revision; authoritative),
* `src/unnamed/part_002` and `src/lib/drive-export.js` — earlier revisions of the same class.

JavaScript objects with optional fields are embedded with `Option` fields;
JavaScript truthiness on strings (`undefined`/`""` are falsy) is `strTruthy`.
Network and authorizer interactions are embedded as effect traces produced by
pure functions parameterized by oracles for the responses.
-/

namespace ElectronDrive

/-- JS truthiness of a possibly-undefined string value: `undefined` and `""` are falsy. -/
def strTruthy : Option String → Bool
  | none => false
  | some s => s ≠ ""

/-- JS `a || b` for possibly-undefined string values. -/
def jsOr (a b : Option String) : Option String :=
  if strTruthy a then a else b

/-- JS string concatenation `'Bearer ' + token` where `token` may be `undefined`. -/
def bearerOf (token : Option String) : String :=
  "Bearer " ++ token.getD "undefined"

/-- `String.prototype.toLowerCase()`, written over the character list so that
it evaluates by kernel reduction. -/
def jsToLower (s : String) : String :=
  String.mk (s.data.map Char.toLower)

/-! ## Session initialization (`_initializeSession`, src/unnamed/part_001 lines 353-399) -/

/-- An HTTP header value as Electron's `net` module delivers it: a single string
or an array of strings. -/
inductive HeaderVal
  | single (s : String)
  | multi (l : List String)
  deriving DecidableEq

/-- The response observed by `_initializeSession`: status code, the optional
`location` header, and the drained body (only read when status ≥ 400). -/
structure InitResponse where
  statusCode : Nat
  location : Option HeaderVal
  body : String
  deriving DecidableEq

/-- The fixed diagnostic prefix used for HTTP-error session-init failures. -/
def sessionInitFailPrefix : String :=
  "Could not initialize Drive upload session. Reason: "

/-- The error message for a successful status without a usable `Location` header. -/
def missingLocationMsg : String :=
  "Could not initialize Drive upload session."

/-- JS truthiness of the `location` header value (`if (result)`): an empty string
is falsy, an array (even empty) is truthy. -/
def headerTruthy : HeaderVal → Bool
  | .single s => s ≠ ""
  | .multi _ => true

/-- `result instanceof Array ? result[0] : result` — the first element of an
array-valued header (which is `undefined` when the array is empty). -/
def headerFirst : HeaderVal → Option String
  | .single s => some s
  | .multi l => l.head?

/-- The response handler of `_initializeSession`: status ≥ 400 rejects with the
prefixed drained body; otherwise a truthy `location` header resolves to its
(first) value and a missing or falsy header rejects. -/
def initSessionResult (r : InitResponse) : Except String (Option String) :=
  if 400 ≤ r.statusCode then
    .error (sessionInitFailPrefix ++ r.body)
  else
    match r.location with
    | some v => if headerTruthy v then .ok (headerFirst v) else .error missingLocationMsg
    | none => .error missingLocationMsg

/-! ## Renderer-side request correlator (`ArcElectronDrive`, src/unnamed/part_000) -/

/-- A pending promise entry of `this._promises`: the `resolve` and `reject`
callbacks, embedded as opaque callback tokens. -/
structure PendingOp where
  resolveTok : Nat
  rejectTok : Nat
  deriving DecidableEq

/-- The renderer-side state: the pending-promise table keyed by request id, and
the last used request id. -/
structure RendererState where
  promises : Nat → Option PendingOp
  index : Nat

/-- `_mainResultHandler` (src/unnamed/part_000 lines 232-239): looks up the id;
on a miss returns silently, otherwise deletes the entry and invokes `resolve`.
The invoked callback (if any) is returned as `some (resolveTok, result)`. -/
def mainResultHandler {α : Type} (s : RendererState) (id : Nat) (result : α) :
    RendererState × Option (Nat × α) :=
  match s.promises id with
  | none => (s, none)
  | some p =>
      ({ s with promises := fun k => if k = id then none else s.promises k },
        some (p.resolveTok, result))

/-- `_mainErrorHandler` (src/unnamed/part_000 lines 246-253): same shape, but
invokes `reject`. -/
def mainErrorHandler {α : Type} (s : RendererState) (id : Nat) (cause : α) :
    RendererState × Option (Nat × α) :=
  match s.promises id with
  | none => (s, none)
  | some p =>
      ({ s with promises := fun k => if k = id then none else s.promises k },
        some (p.rejectTok, cause))

/-! ## `DriveExport` construction (src/unnamed/part_001 lines 23-63) -/

/-- The options object accepted by the `DriveExport` constructor. Besides the
documented `mime`, `fileDescription` and `fileType` keys, it records the
(normally absent) `opts` property, because the constructor reads `opts.opts`. -/
structure DriveOpts where
  mime : Option String
  fileDescription : Option String
  fileType : Option String
  opts : Option String
  deriving DecidableEq

/-- `DriveExport.arcDefaults` (src/unnamed/part_001 lines 27-33). It carries no
`opts` property. -/
def arcDefaults : DriveOpts :=
  { mime := some "application/restclient+data"
    fileDescription := some "Advanced REST client data export file."
    fileType := some "application/json"
    opts := none }

/-- The instance state of `DriveExport` relevant to the claims. -/
structure DriveExport where
  mime : Option String
  fileDescription : Option String
  fileType : Option String
  deriving DecidableEq

/-- The `DriveExport` constructor (src/unnamed/part_001 lines 38-63). Note that
the source assigns `this.mime = opts.opts`, not `opts.mime`. -/
def mkDriveExport (o : Option DriveOpts) : DriveExport :=
  let opts := o.getD { mime := none, fileDescription := none, fileType := none, opts := none }
  { mime := opts.opts
    fileDescription := opts.fileDescription
    fileType := opts.fileType }

/-- The instance built by the tests and the demo: `new DriveExport(DriveExport.arcDefaults)`. -/
def arcInstance : DriveExport := mkDriveExport (some arcDefaults)

/-! ## File resources and parent references -/

/-- A caller-supplied parent reference: a raw string, or an object with optional
`name` and `id` fields. -/
inductive ParentItem
  | pstr (s : String)
  | pobj (name : Option String) (id : Option String)
  deriving DecidableEq

/-- The value of `resource.parents`: the caller's raw reference list, or (after
`create` rewrites it) a list of plain folder-id strings. -/
inductive ParentsField
  | raw (l : List ParentItem)
  | ids (l : List String)
  deriving DecidableEq

/-- A Drive file resource (`meta`), with the fields this library touches. -/
structure Resource where
  name : Option String
  description : Option String
  mimeType : Option String
  parents : Option ParentsField
  deriving DecidableEq

/-- A resource with no fields set (`{}` in the source). -/
def blankResource : Resource :=
  { name := none, description := none, mimeType := none, parents := none }

/-- The mime defaulting step shared by `create` and `update`
(src/unnamed/part_001 lines 306-308 and 337-339):
`if (!resource.mimeType && this.mime) resource.mimeType = this.mime`. -/
def applyDefaultMime (inst : DriveExport) (r : Resource) : Resource :=
  if !strTruthy r.mimeType && strTruthy inst.mime then
    { r with mimeType := inst.mime }
  else r

/-! ## Authorization dispatch (`auth`, src/unnamed/part_001 lines 161-174) -/

/-- A caller-supplied authorization configuration object. `configId` stands for
the remaining (opaque) OAuth configuration fields. -/
structure AuthConf where
  accessToken : Option String
  configId : Nat
  deriving DecidableEq

/-- A request made to the external `Oauth2Identity` authorizer. -/
inductive AuthReq
  | webFlow (conf : AuthConf)
  | getToken (interactive : Bool)
  deriving DecidableEq

/-- What the `auth` method decides to do with the caller's `auth` argument. -/
inductive AuthDecision
  | resolved (conf : AuthConf)
  | authorize (req : AuthReq)
  deriving DecidableEq

/-- The branch structure of `auth(auth)` (src/unnamed/part_001 lines 161-174):
a truthy `accessToken` resolves the argument itself; an `auth` object without
one goes to `Oauth2Identity.launchWebAuthFlow(auth)`; no argument goes to
`Oauth2Identity.getAuthToken({ interactive: true })`. -/
def authDecision : Option AuthConf → AuthDecision
  | some a => if strTruthy a.accessToken then .resolved a else .authorize (.webFlow a)
  | none => .authorize (.getToken true)

/-! ## JS values and `JSON.stringify` (for `_createMedia`) -/

/-- A JavaScript value, as far as `_createMedia` and `JSON.stringify` care. -/
inductive JsVal
  | undef
  | vnull
  | vbool (b : Bool)
  | vnum (n : Int)
  | vstr (s : String)
  | varr (l : List JsVal)
  | vobj (fields : List (String × JsVal))

/-- Whether a JS value is a string (`typeof body === 'string'`). -/
def JsVal.isStr : JsVal → Bool
  | .vstr _ => true
  | _ => false

/-- JSON string escaping for the backslash and double-quote characters. -/
def jsonEscape (s : String) : String :=
  s.foldl (fun acc c =>
    if c = '\\' then acc ++ "\\\\"
    else if c = '"' then acc ++ "\\\""
    else acc.push c) ""

mutual

/-- `JSON.stringify`: `undefined` serializes to `undefined` (no string); inside
arrays it becomes `null` and inside objects the field is omitted. -/
def jsonStringify : JsVal → Option String
  | .undef => none
  | .vnull => some "null"
  | .vbool b => some (if b then "true" else "false")
  | .vnum n => some (toString n)
  | .vstr s => some ("\"" ++ jsonEscape s ++ "\"")
  | .varr l => some ("[" ++ String.intercalate "," (jsonStringifyArr l) ++ "]")
  | .vobj fs => some ("\x7b" ++ String.intercalate "," (jsonStringifyFields fs) ++ "\x7d")

/-- Array elements of `JSON.stringify`; unserializable elements render as `null`. -/
def jsonStringifyArr : List JsVal → List String
  | [] => []
  | v :: rest => ((jsonStringify v).getD "null") :: jsonStringifyArr rest

/-- Object fields of `JSON.stringify`; fields with unserializable values are omitted. -/
def jsonStringifyFields : List (String × JsVal) → List String
  | [] => []
  | (k, v) :: rest =>
    match jsonStringify v with
    | none => jsonStringifyFields rest
    | some sv => ("\"" ++ jsonEscape k ++ "\":" ++ sv) :: jsonStringifyFields rest

end

/-- A media payload as built by `_createMedia`. -/
structure Media where
  mimeType : Option String
  body : JsVal

/-- The request configuration handed to `_dataSaveHandler` (the parts
`_createMedia` reads). -/
structure MediaConfig where
  body : JsVal
  type : Option String

/-- `_createMedia` (src/unnamed/part_001 lines 127-137): a non-string body is
replaced by `JSON.stringify(body)` (which is `undefined` for `undefined`), and
`mimeType` is `type || this.fileType`. -/
def createMedia (inst : DriveExport) (c : MediaConfig) : Media :=
  let body :=
    match c.body with
    | .vstr s => JsVal.vstr s
    | v =>
        match jsonStringify v with
        | some s => JsVal.vstr s
        | none => JsVal.undef
  { mimeType := jsOr c.type inst.fileType, body := body }

/-! ## Parent normalization (`_normalizeParents`, src/unnamed/part_001 lines 478-495) -/

/-- A normalized parent entry: an object with optional `name` and `id`. -/
structure NormParent where
  name : Option String
  id : Option String
  deriving DecidableEq

/-- `_normalizeParents`: strings become `{name}` (or `{id:'root'}` for a
case-insensitive "my drive"); objects with falsy `name` and falsy `id` are
dropped; other objects are pushed with their fields unchanged. -/
def normalizeParents : List ParentItem → List NormParent
  | [] => []
  | .pstr s :: rest =>
      (if jsToLower s = "my drive" then { name := none, id := some "root" }
       else { name := some s, id := none }) :: normalizeParents rest
  | .pobj n i :: rest =>
      if !strTruthy n && !strTruthy i then normalizeParents rest
      else { name := n, id := i } :: normalizeParents rest

/-! ## Effect traces for the folder / upload pipeline -/

/-- An observable interaction of the main-process `DriveExport` code: a call to
the external authorizer, or one of the HTTP requests it issues. -/
inductive Effect
  | authorizerCall (req : AuthReq)
  | httpCreateFolder (name : Option String) (bearer : String)
  | httpInitSession (bearer : String) (resource : Resource)
  | httpUploadPut (bearer : String) (url : Option String) (body : JsVal) (mime : Option String)

/-- Whether an effect is an HTTP request (as opposed to an authorizer call). -/
def Effect.isHttp : Effect → Bool
  | .authorizerCall _ => false
  | _ => true

/-- Whether an effect is the session-initialization request. -/
def Effect.isInitSession : Effect → Bool
  | .httpInitSession _ _ => true
  | _ => false

/-- Whether an effect is the upload PUT. -/
def Effect.isUploadPut : Effect → Bool
  | .httpUploadPut _ _ _ _ => true
  | _ => false

/-- `this.auth(auth)` as used inside the pipeline: the decision plus the
authorizer effect it causes (none when a supplied token short-circuits it).
The oracle answers authorizer requests with a token-info object. -/
def resolveAuth (authorizer : AuthReq → AuthConf) (a : Option AuthConf) :
    AuthConf × List Effect :=
  match authDecision a with
  | .resolved c => (c, [])
  | .authorize req => (authorizer req, [.authorizerCall req])

/-- `createFolder(name, auth)` (src/unnamed/part_001 lines 536-540 and 547-587):
re-resolves authorization, then POSTs the folder resource; the oracle
`folderId` answers with the created folder's id from the response. -/
def createFolderOp (authorizer : AuthReq → AuthConf) (folderId : Option String → String)
    (name : Option String) (a : Option AuthConf) : String × List Effect :=
  let ra := resolveAuth authorizer a
  (folderId name, ra.2 ++ [.httpCreateFolder name (bearerOf ra.1.accessToken)])

/-- `_createParents` (src/unnamed/part_001 lines 503-520), with the recursive
list-draining written as structural recursion: entries with a truthy `id` are
pushed to the result untouched; other entries get an id from `createFolder`,
are pushed to the result and appended to the instance folder cache.
Returns (result, cache additions, effects). -/
def createParentsLoop (authorizer : AuthReq → AuthConf) (folderId : Option String → String)
    (info : AuthConf) :
    List NormParent → List NormParent → List NormParent × List NormParent × List Effect
  | [], result => (result, [], [])
  | p :: rest, result =>
    if strTruthy p.id then
      createParentsLoop authorizer folderId info rest (result ++ [p])
    else
      let step := createFolderOp authorizer folderId p.name (some info)
      let p' : NormParent := { p with id := some step.1 }
      let tail := createParentsLoop authorizer folderId info rest (result ++ [p'])
      (tail.1, p' :: tail.2.1, step.2 ++ tail.2.2)

/-- `createParents` (src/unnamed/part_001 lines 462-472): rejects an empty or
missing list, normalizes, returns `[]` for an all-dropped list, otherwise
authorizes and runs `_createParents`.
Returns (outcome, cache additions, effects). -/
def createParentsOp (authorizer : AuthReq → AuthConf) (folderId : Option String → String)
    (parents : Option (List ParentItem)) (a : Option AuthConf) :
    Except String (List NormParent) × List NormParent × List Effect :=
  match parents with
  | none => (.error "The parents argument not set.", [], [])
  | some l =>
    if l.isEmpty then (.error "The parents argument not set.", [], [])
    else
      let nl := normalizeParents l
      if nl.isEmpty then (.ok [], [], [])
      else
        let ra := resolveAuth authorizer a
        let loop := createParentsLoop authorizer folderId ra.1 nl []
        (.ok loop.1, loop.2.1, ra.2 ++ loop.2.2)

/-- The HTTP effects of `n` successive identical `createParents` calls. -/
def repeatedCreateParentsHttp (authorizer : AuthReq → AuthConf)
    (folderId : Option String → String) (parents : Option (List ParentItem))
    (a : Option AuthConf) : Nat → List Effect
  | 0 => []
  | n + 1 =>
      (createParentsOp authorizer folderId parents a).2.2.filter Effect.isHttp ++
        repeatedCreateParentsHttp authorizer folderId parents a n

/-! ## The `create` pipeline (src/unnamed/part_001 lines 305-326) -/

/-- The parsed JSON file resource returned by the upload PUT, with the `parents`
field that `create` may overwrite afterwards. `data` stands for the remaining
response fields. -/
structure FileResult where
  data : List (String × String)
  parents : Option (List NormParent)

/-- Oracles answering the external interactions of one `create` call. -/
structure CreateOracles where
  authorizer : AuthReq → AuthConf
  folderId : Option String → String
  initResponse : InitResponse
  uploadResult : FileResult

/-- `resource.parents` viewed as the JS array `createParents` receives: raw
entries as given, id strings as plain strings. -/
def parentsItems : ParentsField → List ParentItem
  | .raw l => l
  | .ids l => l.map ParentItem.pstr

/-- `create(resource, media, auth)` (src/unnamed/part_001 lines 305-326):
mime defaulting, authorization, optional parent resolution (rewriting
`resource.parents` to the resolved id strings, or deleting it when resolution
produces nothing), session initialization, upload PUT, and attaching the
resolved parent objects to the returned result.
Returns (outcome, final resource state, effect trace). -/
def createOp (inst : DriveExport) (o : CreateOracles) (resource : Resource) (media : Media)
    (a : Option AuthConf) : Except String FileResult × Resource × List Effect :=
  let r1 := applyDefaultMime inst resource
  let ra := resolveAuth o.authorizer a
  let info := ra.1
  let e1 := ra.2
  let token := info.accessToken
  let parentsStep : Except String (Resource × Option (List NormParent)) × List Effect :=
    match r1.parents with
    | none => (.ok (r1, none), [])
    | some pf =>
      let l := parentsItems pf
      if l.isEmpty then (.ok (r1, none), [])
      else
        let cp := createParentsOp o.authorizer o.folderId (some l) (some info)
        match cp.1 with
        | .error m => (.error m, cp.2.2)
        | .ok pres =>
          let r2 :=
            if pres.isEmpty then { r1 with parents := none }
            else { r1 with parents := some (.ids (pres.map (fun p => p.id.getD "undefined"))) }
          (.ok (r2, some pres), cp.2.2)
  match parentsStep.1 with
  | .error m => (.error m, r1, e1 ++ parentsStep.2)
  | .ok (r2, createdParents) =>
    match initSessionResult o.initResponse with
    | .error m =>
        (.error m, r2, e1 ++ parentsStep.2 ++ [.httpInitSession (bearerOf token) r2])
    | .ok url =>
      let result0 := o.uploadResult
      let result :=
        match createdParents with
        | some cp => { result0 with parents := some cp }
        | none => result0
      (.ok result, r2,
        e1 ++ parentsStep.2 ++
          [.httpInitSession (bearerOf token) r2,
           .httpUploadPut (bearerOf token) url media.body media.mimeType])

/-! ## App-folder listing (`_listAppFoldersHandler`, src/unnamed/part_001 lines 181-233) -/

/-- A `{id, name}` folder entry. -/
structure Folder where
  id : Option String
  name : Option String
  deriving DecidableEq

/-- The parsed body of a successful folder-listing response: its optional
`files` array. -/
structure FilesBody where
  files : Option (List Folder)
  deriving DecidableEq

/-- The instance state `this.cachedFolders`. -/
structure FoldersState where
  cachedFolders : Option (List Folder)
  deriving DecidableEq

/-- The `opts` argument of the handler. -/
structure ListOpts where
  interactive : Option Bool
  deriving DecidableEq

/-- An observable interaction of the folder-listing path. -/
inductive ListEffect
  | authCall (interactive : Bool)
  | httpListFolders (bearer : String)
  deriving DecidableEq

/-- What the handler sends back over IPC. -/
inductive ListOutcome
  | result (folders : List Folder)
  | errorMsg (m : String)
  deriving DecidableEq

/-- Oracles for the folder-listing path: `getToken` answers
`Oauth2Identity.getAuthToken` (possibly with no token), `listResult` is the
parsed outcome of the listing GET (`.error` covers both a JSON-parse failure
and a Drive `error` body). -/
structure ListOracles where
  getToken : Bool → Option AuthConf
  listResult : Except String FilesBody

/-- Message standing for the `TypeError` raised when `getAuthToken` yields no
token and the handler reads `.files` of `undefined`. -/
def undefinedFilesMsg : String := "Cannot read property files of undefined"

/-- The handler's `interactive` default:
`typeof opts.interactive === 'undefined' ? true : opts.interactive`, with a
missing `opts` replaced by `{}` first. -/
def listInteractive : Option ListOpts → Bool
  | none => true
  | some op => match op.interactive with | none => true | some b => b

/-- `_listAppFoldersHandler` (src/unnamed/part_001 lines 181-213): a truthy
`this.cachedFolders` is sent back immediately with no authorizer or network
interaction; otherwise `listAppFolders` runs (defaulting `interactive` to
`true`), its `files` are mapped to `{id, name}` pairs, the result is cached and
sent. Returns (new state, effects, outcome). -/
def listAppFoldersHandler (o : ListOracles) (s : FoldersState) (opts : Option ListOpts) :
    FoldersState × List ListEffect × ListOutcome :=
  match s.cachedFolders with
  | some cached => (s, [], .result cached)
  | none =>
    let interactive := listInteractive opts
    match o.getToken interactive with
    | none => (s, [.authCall interactive], .errorMsg undefinedFilesMsg)
    | some auth =>
      match o.listResult with
      | .error m =>
          (s, [.authCall interactive, .httpListFolders (bearerOf auth.accessToken)], .errorMsg m)
      | .ok body =>
        let folders := (body.files.getD []).map (fun f => ({ id := f.id, name := f.name } : Folder))
        ({ cachedFolders := some folders },
          [.authCall interactive, .httpListFolders (bearerOf auth.accessToken)],
          .result folders)

/-! ## Heap model for in-place mutation (claim C10) -/

/-- A reference to a JS object in the heap. -/
abbrev Ref := Nat

/-- The `parents` field of a heap resource object: a reference to an array, or
(after `create` rewrites it) a list of plain id strings. -/
inductive HParents
  | arrRef (r : Ref)
  | idList (l : List String)
  deriving DecidableEq

/-- A heap object, with the fields this library reads or writes. -/
structure HObj where
  name : Option String
  id : Option String
  description : Option String
  mimeType : Option String
  parents : Option HParents
  deriving DecidableEq

/-- An element of a JS array: a raw string or an object reference. -/
inductive HElem
  | estr (s : String)
  | eref (r : Ref)
  deriving DecidableEq

/-- The mutable state of the main process: an object store, an array store, an
allocation counter, and the shared `this.cachedFolders` list. -/
structure Heap where
  objs : Ref → Option HObj
  arrs : Ref → Option (List HElem)
  next : Ref
  cachedFolders : Option (List HElem)

/-- Overwrite the object at `r`. -/
def Heap.setObj (h : Heap) (r : Ref) (o : HObj) : Heap :=
  { h with objs := fun k => if k = r then some o else h.objs k }

/-- Overwrite the array at `r`. -/
def Heap.setArr (h : Heap) (r : Ref) (l : List HElem) : Heap :=
  { h with arrs := fun k => if k = r then some l else h.arrs k }

/-- Allocate a fresh object, returning its reference. -/
def Heap.allocObj (h : Heap) (o : HObj) : Heap × Ref :=
  ({ h with objs := fun k => if k = h.next then some o else h.objs k, next := h.next + 1 },
    h.next)

/-- The field updates `_createResource` performs on a meta object
(src/unnamed/part_001 lines 148-153): default the falsy `description` from the
instance, and default a falsy `mimeType` to `type || this.fileType`. -/
def resourceDefaults (inst : DriveExport) (typ : Option String) (o : HObj) : HObj :=
  let o1 :=
    if !strTruthy o.description && strTruthy inst.fileDescription then
      { o with description := inst.fileDescription }
    else o
  if !strTruthy o1.mimeType then { o1 with mimeType := jsOr typ inst.fileType } else o1

/-- `_createResource(config)` (src/unnamed/part_001 lines 143-155) on the heap:
a missing `meta` allocates a fresh `{}`; otherwise the caller's object is
updated in place and its own reference is returned. -/
def createResourceH (inst : DriveExport) (h : Heap) (metaRef : Option Ref)
    (typ : Option String) : Heap × Ref :=
  match metaRef with
  | none =>
    let (h1, r) := h.allocObj
      { name := none, id := none, description := none, mimeType := none, parents := none }
    match h1.objs r with
    | some o => (h1.setObj r (resourceDefaults inst typ o), r)
    | none => (h1, r)
  | some r =>
    match h.objs r with
    | some o => (h.setObj r (resourceDefaults inst typ o), r)
    | none => (h, r)

/-- `item.id` read from a result entry (a string primitive has no `id`). -/
def elemId (h : Heap) : HElem → String
  | .estr _ => "undefined"
  | .eref r => ((h.objs r).bind HObj.id).getD "undefined"

/-- The `resource.parents` rewrite inside `create`
(src/unnamed/part_001 lines 314-318): an empty or missing resolution deletes
the field, otherwise it is overwritten with `createdParents.map(item => item.id)`. -/
def updateParentsField (h : Heap) (resourceRef : Ref) (createdParents : List HElem) : Heap :=
  match h.objs resourceRef with
  | none => h
  | some o =>
    if createdParents.isEmpty then h.setObj resourceRef { o with parents := none }
    else h.setObj resourceRef
      { o with parents := some (.idList (createdParents.map (elemId h))) }

/-- Append an entry to `this.cachedFolders`, initializing it to `[]` first if
it is still unset (src/unnamed/part_001 lines 515-518). -/
def pushCache (h : Heap) (e : HElem) : Heap :=
  { h with cachedFolders := some ((h.cachedFolders.getD []) ++ [e]) }

/-- `_createParents(parents, auth, result)` (src/unnamed/part_001 lines
503-520) on the heap: `parents.shift()` destructively drains the array at
`arrRef`; an entry with a truthy `id` goes straight to the result; otherwise
the created folder id is assigned into the entry's own object, which is pushed
to both the result and the shared folder cache. A falsy entry (the empty
string) stops the loop. `fuel` bounds the recursion; the initial array length
is always enough. -/
def createParentsH (folderId : Option String → String) (h : Heap) (arrRef : Ref)
    (result : List HElem) : Nat → Heap × List HElem
  | 0 => (h, result)
  | fuel + 1 =>
    match h.arrs arrRef with
    | none => (h, result)
    | some [] => (h, result)
    | some (e :: rest) =>
      let h1 := h.setArr arrRef rest
      match e with
      | .estr s =>
        if s = "" then (h1, result)
        else
          -- a string primitive has no truthy `id`; the `parent.id = id`
          -- assignment on it is silently lost
          let _fid := folderId none
          let h2 := pushCache h1 (.estr s)
          createParentsH folderId h2 arrRef (result ++ [.estr s]) fuel
      | .eref pr =>
        match h1.objs pr with
        | none => (h1, result)
        | some p =>
          if strTruthy p.id then
            createParentsH folderId h1 arrRef (result ++ [.eref pr]) fuel
          else
            let fid := folderId p.name
            let h2 := h1.setObj pr { p with id := some fid }
            let h3 := pushCache h2 (.eref pr)
            createParentsH folderId h3 arrRef (result ++ [.eref pr]) fuel

/-- Run `_createParents` with an empty result accumulator and enough fuel. -/
def createParentsHRun (folderId : Option String → String) (h : Heap) (arrRef : Ref) :
    Heap × List HElem :=
  createParentsH folderId h arrRef [] ((h.arrs arrRef).getD []).length

/-- Whether an array entry takes the folder-creating branch of `_createParents`
in heap `h`: a live object reference whose `id` is falsy. -/
def isCreatedEntry (h : Heap) : HElem → Bool
  | .estr _ => true
  | .eref r =>
    match h.objs r with
    | some p => !strTruthy p.id
    | none => false

/-- The object reference carried by an array entry, if any. -/
def HElem.ref? : HElem → Option Ref
  | .estr _ => none
  | .eref r => some r

/-! ## Spec-side definitions (for refinement-style statements) -/

/-- Spec side of C5: which raw parent entries survive normalization. -/
def specKeepParent : ParentItem → Bool
  | .pstr _ => true
  | .pobj n i => strTruthy n || strTruthy i

/-- Spec side of C5: the normalized form of a surviving entry. -/
def specNormalizeOne : ParentItem → NormParent
  | .pstr s =>
      if jsToLower s = "my drive" then { name := none, id := some "root" }
      else { name := some s, id := none }
  | .pobj n i => { name := n, id := i }

/-! ## Effect classifiers and concrete fixtures -/

/-- Whether an effect is a call to the external authorizer. -/
def Effect.isAuthorizerCall : Effect → Bool
  | .authorizerCall _ => true
  | _ => false

/-- The bearer `authorization` header value an HTTP effect carries, if any. -/
def Effect.bearer? : Effect → Option String
  | .authorizerCall _ => none
  | .httpCreateFolder _ b => some b
  | .httpInitSession b _ => some b
  | .httpUploadPut b _ _ _ => some b

/-- A concrete correlator state with one pending operation registered at id 5. -/
def c2state : RendererState :=
  { promises := fun k => if k = 5 then some { resolveTok := 1, rejectTok := 2 } else none
    index := 5 }

/-- A concrete auth configuration carrying an access token. -/
def tokenAuth : AuthConf := { accessToken := some "tok", configId := 0 }

/-- A concrete authorizer oracle. -/
def az0 : AuthReq → AuthConf := fun _ => tokenAuth

/-- A concrete folder-id oracle. -/
def fid0 : Option String → String := fun _ => "fid-1"

/-- Concrete oracles for one successful `create` call. -/
def createOracles0 : CreateOracles :=
  { authorizer := az0
    folderId := fid0
    initResponse :=
      { statusCode := 200, location := some (.single "https://upload.example/u"), body := "" }
    uploadResult := { data := [("id", "file1")], parents := none } }

/-- A concrete resource carrying one named parent reference. -/
def resource0 : Resource :=
  { name := some "f", description := none, mimeType := none
    parents := some (.raw [.pobj (some "Projects") none]) }

/-- A concrete media payload. -/
def media0 : Media := { mimeType := some "application/json", body := .vstr "body" }

/-- Concrete oracles for the folder-listing path. -/
def listOracles0 : ListOracles :=
  { getToken := fun _ => some tokenAuth
    listResult := .ok { files := some [{ id := some "a", name := some "N" }] } }

/-- A concrete parent object that already has an id. -/
def p1Obj : HObj :=
  { name := some "A", id := some "x", description := none, mimeType := none, parents := none }

/-- A concrete parent object without an id. -/
def p2Obj : HObj :=
  { name := some "B", id := none, description := none, mimeType := none, parents := none }

/-- A concrete resource object whose `parents` references the array at 10. -/
def res0Obj : HObj :=
  { name := some "f", id := none, description := none, mimeType := none
    parents := some (.arrRef 10) }

/-- A concrete heap: the resource object at 0, two parent objects at 1 and 2,
and the parents array at 10. -/
def heap0 : Heap :=
  { objs := fun r =>
      if r = 0 then some res0Obj
      else if r = 1 then some p1Obj
      else if r = 2 then some p2Obj
      else none
    arrs := fun r => if r = 10 then some [.eref 1, .eref 2] else none
    next := 20
    cachedFolders := none }

/-! ## Helper lemmas about the effect traces -/

theorem resolveAuth_token (az : AuthReq → AuthConf) (a : AuthConf)
    (h : strTruthy a.accessToken = true) : resolveAuth az (some a) = (a, []) := by
  simp [resolveAuth, authDecision, h]

theorem resolveAuth_effects_no_http (az : AuthReq → AuthConf) (a : Option AuthConf) :
    (resolveAuth az a).2.filter Effect.isHttp = [] := by
  rcases a with _ | b
  · simp [resolveAuth, authDecision, Effect.isHttp]
  · rcases h : authDecision (some b) with c | req <;>
      simp [resolveAuth, h, Effect.isHttp]

theorem createParentsLoop_effects_bearer (az : AuthReq → AuthConf)
    (fid : Option String → String) (info : AuthConf)
    (h : strTruthy info.accessToken = true) :
    ∀ (l acc : List NormParent), ∀ e ∈ (createParentsLoop az fid info l acc).2.2,
      ∃ n, e = Effect.httpCreateFolder n (bearerOf info.accessToken) := by
  intro l
  induction l with
  | nil => intro acc e he; simp [createParentsLoop] at he
  | cons p rest ih =>
    intro acc e he
    cases hid : strTruthy p.id with
    | true =>
      rw [createParentsLoop] at he
      simp only [hid, if_true] at he
      exact ih _ e he
    | false =>
      rw [createParentsLoop] at he
      simp only [hid, createFolderOp, resolveAuth_token az info h, Bool.false_eq_true,
        if_false, List.nil_append, List.mem_append, List.mem_singleton] at he
      rcases he with he | he
      · exact ⟨p.name, he⟩
      · exact ih _ e he

theorem createParentsOp_effects_bearer (az : AuthReq → AuthConf)
    (fid : Option String → String) (l : List ParentItem) (info : AuthConf)
    (h : strTruthy info.accessToken = true) :
    ∀ e ∈ (createParentsOp az fid (some l) (some info)).2.2,
      ∃ n, e = Effect.httpCreateFolder n (bearerOf info.accessToken) := by
  intro e he
  rw [createParentsOp] at he
  cases hl : l.isEmpty with
  | true => simp only [hl, if_true] at he; simp at he
  | false =>
    simp only [hl, Bool.false_eq_true, if_false] at he
    cases hnl : (normalizeParents l).isEmpty with
    | true => simp only [hnl, if_true] at he; simp at he
    | false =>
      simp only [hnl, Bool.false_eq_true, if_false, resolveAuth_token az info h,
        List.nil_append] at he
      exact createParentsLoop_effects_bearer az fid info h _ _ e he

theorem createParentsLoop_all_ids (az : AuthReq → AuthConf) (fid : Option String → String)
    (info : AuthConf) :
    ∀ (l acc : List NormParent), (∀ p ∈ l, strTruthy p.id = true) →
      createParentsLoop az fid info l acc = (acc ++ l, [], []) := by
  intro l
  induction l with
  | nil => intro acc _; simp [createParentsLoop]
  | cons p rest ih =>
    intro acc hall
    have hp : strTruthy p.id = true := hall p (List.mem_cons_self _ _)
    rw [createParentsLoop]
    simp only [hp, if_true,
      ih (acc ++ [p]) (fun q hq => hall q (List.mem_cons_of_mem _ hq))]
    simp

/-! ## Theorems -/

/-- C1 counterexample: a response with status < 400 and a `Location` header
that is present but holds the empty string — the `if (result)` test treats the
falsy `""` like an absent header, so the operation fails with the
missing-location error instead of returning the header's value `""`. -/
theorem emptyLocation_header_rejected :
    initSessionResult { statusCode := 200, location := some (.single ""), body := "" } =
      .error missingLocationMsg ∧
    initSessionResult { statusCode := 200, location := some (.single ""), body := "" } ≠
      .ok (headerFirst (.single "")) := by
  exact ⟨rfl, fun h => Except.noConfusion h⟩

/-- C1 (amended): for every response to the resumable-session initialization
request — a total case split: status ≥ 400 rejects with the fixed diagnostic
prefix followed by the full drained body; status < 400 with a truthy
`Location` header (a non-empty string, or any array) resolves to that header's
value — the first element when the header is an array; status < 400 with a
falsy `Location` header (present as the empty string) rejects with the
missing-location error, exactly as when the header is absent. -/
theorem initializeSession_response_cases (r : InitResponse) :
    (400 ≤ r.statusCode →
      initSessionResult r = .error (sessionInitFailPrefix ++ r.body)) ∧
    (r.statusCode < 400 → ∀ v, r.location = some v → headerTruthy v = true →
      initSessionResult r = .ok (headerFirst v)) ∧
    (r.statusCode < 400 → ∀ v, r.location = some v → headerTruthy v = false →
      initSessionResult r = .error missingLocationMsg) ∧
    (r.statusCode < 400 → r.location = none →
      initSessionResult r = .error missingLocationMsg) := by
  refine ⟨fun h => ?_, fun h v hv ht => ?_, fun h v hv ht => ?_, fun h hn => ?_⟩
  · simp [initSessionResult, if_pos h]
  · simp [initSessionResult, if_neg (Nat.not_le.mpr h), hv, ht]
  · simp [initSessionResult, if_neg (Nat.not_le.mpr h), hv, ht]
  · simp [initSessionResult, if_neg (Nat.not_le.mpr h), hn]

theorem initializeSession_response_cases_witness :
    initSessionResult { statusCode := 403, location := none, body := "quota exceeded" } =
      .error (sessionInitFailPrefix ++ "quota exceeded") ∧
    initSessionResult
        { statusCode := 200, location := some (.single "https://u"), body := "" } =
      .ok (headerFirst (.single "https://u")) ∧
    initSessionResult { statusCode := 200, location := some (.single ""), body := "" } =
      .error missingLocationMsg :=
  ⟨(initializeSession_response_cases
      { statusCode := 403, location := none, body := "quota exceeded" }).1 (by decide),
    (initializeSession_response_cases
      { statusCode := 200, location := some (.single "https://u"), body := "" }).2.1
      (by decide) _ rfl (by decide),
    (initializeSession_response_cases
      { statusCode := 200, location := some (.single ""), body := "" }).2.2.1
      (by decide) _ rfl (by decide)⟩

/-- C2: the pending-operation table obeys `Dispatched → {Resolved | Rejected}`:
delivery for an unregistered id is a silent no-op, delivery for a registered id
removes the entry and fires its callback exactly once, and a second delivery
for the same id fires nothing. The handlers are total functions, so no
delivery throws. -/
theorem correlator_state_machine {α : Type} (s : RendererState) (id : Nat) (x y : α)
    (p : PendingOp) :
    (s.promises id = none →
      mainResultHandler s id x = (s, none) ∧ mainErrorHandler s id y = (s, none)) ∧
    (s.promises id = some p →
      (mainResultHandler s id x).2 = some (p.resolveTok, x) ∧
      (mainResultHandler s id x).1.promises id = none ∧
      (∀ k, k ≠ id → (mainResultHandler s id x).1.promises k = s.promises k) ∧
      (mainErrorHandler s id y).2 = some (p.rejectTok, y) ∧
      (mainErrorHandler s id y).1.promises id = none ∧
      (∀ k, k ≠ id → (mainErrorHandler s id y).1.promises k = s.promises k)) ∧
    ((mainResultHandler (mainResultHandler s id x).1 id y).2 = none ∧
      (mainErrorHandler (mainResultHandler s id x).1 id y).2 = none ∧
      (mainResultHandler (mainErrorHandler s id x).1 id y).2 = none ∧
      (mainErrorHandler (mainErrorHandler s id x).1 id y).2 = none) := by
  refine ⟨fun h => ?_, fun h => ?_, ?_⟩
  · constructor <;> simp [mainResultHandler, mainErrorHandler, h]
  · refine ⟨?_, ?_, fun k hk => ?_, ?_, ?_, fun k hk => ?_⟩
    · simp [mainResultHandler, h]
    · simp [mainResultHandler, h]
    · simp [mainResultHandler, h, hk]
    · simp [mainErrorHandler, h]
    · simp [mainErrorHandler, h]
    · simp [mainErrorHandler, h, hk]
  · rcases h : s.promises id with _ | p' <;>
      simp [mainResultHandler, mainErrorHandler, h]

theorem correlator_state_machine_witness :
    mainResultHandler c2state 7 "ok" = (c2state, none) ∧
    (mainResultHandler c2state 5 "ok").2 = some (1, "ok") ∧
    (mainResultHandler (mainResultHandler c2state 5 "ok").1 5 "again").2 = none :=
  ⟨((correlator_state_machine c2state 7 "ok" "ok" { resolveTok := 1, rejectTok := 2 }).1 rfl).1,
    ((correlator_state_machine c2state 5 "ok" "again" { resolveTok := 1, rejectTok := 2 }).2.1
      rfl).1,
    (correlator_state_machine c2state 5 "ok" "again" { resolveTok := 1, rejectTok := 2 }).2.2.1⟩

/-- C3: the constructor assigns `this.mime = opts.opts`, so the documented
`mime` instance default never reaches `this.mime`: for the instance built from
`arcDefaults`, `this.mime` is `undefined` and the mime-defaulting step of
`create`/`update` leaves an unset `resource.mimeType` unset. -/
theorem mime_default_lost :
    arcDefaults.mime = some "application/restclient+data" ∧
    arcInstance.mime = none ∧
    applyDefaultMime arcInstance blankResource = blankResource ∧
    (applyDefaultMime arcInstance blankResource).mimeType = none := by
  refine ⟨rfl, rfl, ?_, ?_⟩ <;> simp [applyDefaultMime, arcInstance, mkDriveExport,
    arcDefaults, blankResource, strTruthy]

/-- C5 counterexample: the empty string is a falsy entry, yet `_normalizeParents`
does not skip it — it becomes `{name: ""}`. -/
theorem normalize_empty_string_not_skipped :
    normalizeParents [ParentItem.pstr ""] = [{ name := some "", id := none }] ∧
    normalizeParents [ParentItem.pstr ""] ≠ [] := by
  constructor <;> decide

/-- C5 (amended): normalization maps every string entry — including the empty
string — to `{name}` (or `{id:"root"}` for a case-insensitive "my drive"),
drops object entries whose `name` and `id` are both falsy, passes other
objects through with their fields unchanged, and preserves order; and
`normalize(["My Drive", "Projects"])` is `[{id:"root"}, {name:"Projects"}]`. -/
theorem normalizeParents_characterization (l : List ParentItem) :
    normalizeParents l = (l.filter specKeepParent).map specNormalizeOne ∧
    normalizeParents [ParentItem.pstr "My Drive", ParentItem.pstr "Projects"] =
      [{ name := none, id := some "root" }, { name := some "Projects", id := none }] := by
  constructor
  · induction l with
    | nil => rfl
    | cons hd tl ih =>
      cases hd with
      | pstr s =>
        simp [normalizeParents, specKeepParent, specNormalizeOne, ih]
      | pobj n i =>
        by_cases hn : strTruthy n <;> by_cases hi : strTruthy i <;>
          simp [normalizeParents, specKeepParent, specNormalizeOne, hn, hi, ih]
  · decide

/-- C9 counterexample: `JSON.stringify(undefined)` is `undefined`, so for an
undefined `body` the media body is not a string; and a given-but-empty `type`
does not become the `mimeType` — the falsy string falls back to the default. -/
theorem media_body_not_always_string :
    (createMedia arcInstance { body := JsVal.undef, type := none }).body = JsVal.undef ∧
    ((createMedia arcInstance { body := JsVal.undef, type := none }).body).isStr = false ∧
    (createMedia arcInstance { body := JsVal.vstr "x", type := some "" }).mimeType =
      some "application/json" ∧
    (createMedia arcInstance { body := JsVal.vstr "x", type := some "" }).mimeType ≠
      some "" := by
  refine ⟨rfl, rfl, rfl, by decide⟩

/-- C9 (amended): `_createMedia` sets `mimeType` to `type` when that is a
truthy string and to the instance default file type otherwise; a string body
passes through unchanged; every defined non-string body is JSON-serialized to
a string; an undefined body stays undefined. -/
theorem createMedia_characterization (inst : DriveExport) (c : MediaConfig) :
    (createMedia inst c).mimeType = (if strTruthy c.type then c.type else inst.fileType) ∧
    (∀ s, c.body = .vstr s → (createMedia inst c).body = .vstr s) ∧
    (c.body = .undef → (createMedia inst c).body = .undef) ∧
    (c.body.isStr = false → c.body ≠ .undef →
      ∃ t, jsonStringify c.body = some t ∧ (createMedia inst c).body = .vstr t) := by
  refine ⟨?_, ?_, ?_, ?_⟩
  · cases hb : c.body <;> simp [createMedia, jsOr, hb]
  · intro s hs
    simp [createMedia, hs]
  · intro hu
    simp [createMedia, hu, jsonStringify]
  · intro hns hnu
    cases hb : c.body with
    | undef => exact absurd hb hnu
    | vstr s => simp [JsVal.isStr, hb] at hns
    | vnull => exact ⟨_, rfl, by simp [createMedia, hb, jsonStringify]⟩
    | vbool b => exact ⟨_, rfl, by simp [createMedia, hb, jsonStringify]⟩
    | vnum n => exact ⟨_, rfl, by simp [createMedia, hb, jsonStringify]⟩
    | varr l => exact ⟨_, rfl, by simp [createMedia, hb, jsonStringify]⟩
    | vobj fs => exact ⟨_, rfl, by simp [createMedia, hb, jsonStringify]⟩

theorem createMedia_characterization_witness :
    ∃ t, jsonStringify (JsVal.vnum 42) = some t ∧
      (createMedia arcInstance { body := JsVal.vnum 42, type := some "text/plain" }).body =
        .vstr t :=
  (createMedia_characterization arcInstance
    { body := JsVal.vnum 42, type := some "text/plain" }).2.2.2 rfl (fun h => nomatch h)

/-- C4 counterexample: with no `auth` argument the code calls
`Oauth2Identity.getAuthToken({ interactive: true })`, not a non-interactive
token request. -/
theorem default_token_request_interactive :
    authDecision none = .authorize (.getToken true) ∧
    authDecision none ≠ .authorize (.getToken false) := by
  decide

/-- C4 (amended): a supplied `auth.accessToken` resolves the configuration
itself, and that exact token is the Bearer token of every HTTP request of the
subsequent `create` call, with no authorizer call anywhere in the trace; an
`auth` object without a token goes to the interactive `launchWebAuthFlow`
consent flow; an absent `auth` issues a default `getAuthToken` request with
`interactive: true`. -/
theorem auth_delegation (inst : DriveExport) (o : CreateOracles) (r : Resource) (m : Media)
    (a : AuthConf) (h : strTruthy a.accessToken = true) :
    authDecision (some a) = .resolved a ∧
    (∀ b : AuthConf, strTruthy b.accessToken = false →
      authDecision (some b) = .authorize (.webFlow b)) ∧
    authDecision none = .authorize (.getToken true) ∧
    (∀ t, a.accessToken = some t →
      ∀ e ∈ (createOp inst o r m (some a)).2.2,
        e.isAuthorizerCall = false ∧ e.bearer? = some ("Bearer " ++ t)) := by
  refine ⟨by simp [authDecision, h], fun b hb => by simp [authDecision, hb], by decide,
    fun t ht e he => ?_⟩
  have hb : bearerOf a.accessToken = "Bearer " ++ t := by simp [bearerOf, ht]
  rw [createOp] at he
  simp only [resolveAuth_token o.authorizer a h] at he
  rcases hp : (applyDefaultMime inst r).parents with _ | pf
  · simp only [hp] at he
    rcases hi : initSessionResult o.initResponse with msg | url <;>
      simp only [hi, List.nil_append, List.mem_append, List.mem_singleton,
        List.mem_cons, List.not_mem_nil, or_false] at he
    · cases he
      simp [Effect.isAuthorizerCall, Effect.bearer?, hb]
    · rcases he with he | he <;>
        (cases he; simp [Effect.isAuthorizerCall, Effect.bearer?, hb])
  · simp only [hp] at he
    cases hl : (parentsItems pf).isEmpty with
    | true =>
      simp only [hl, if_true] at he
      rcases hi : initSessionResult o.initResponse with msg | url <;>
        simp only [hi, List.nil_append, List.mem_append, List.mem_singleton,
          List.mem_cons, List.not_mem_nil, or_false] at he
      · cases he
        simp [Effect.isAuthorizerCall, Effect.bearer?, hb]
      · rcases he with he | he <;>
          (cases he; simp [Effect.isAuthorizerCall, Effect.bearer?, hb])
    | false =>
      simp only [hl, Bool.false_eq_true, if_false] at he
      have hfolder := createParentsOp_effects_bearer o.authorizer o.folderId
        (parentsItems pf) a h
      rcases hcp : (createParentsOp o.authorizer o.folderId (some (parentsItems pf))
          (some a)).1 with msg | pres
      · simp only [hcp, List.nil_append] at he
        rcases hfolder e he with ⟨n, rfl⟩
        simp [Effect.isAuthorizerCall, Effect.bearer?, hb]
      · simp only [hcp] at he
        rcases hi : initSessionResult o.initResponse with msg | url <;>
          simp only [hi, List.nil_append, List.mem_append, List.mem_singleton,
            List.mem_cons, List.not_mem_nil, or_false] at he
        · rcases he with he | he
          · rcases hfolder e he with ⟨n, rfl⟩
            simp [Effect.isAuthorizerCall, Effect.bearer?, hb]
          · cases he
            simp [Effect.isAuthorizerCall, Effect.bearer?, hb]
        · rcases he with he | he | he
          · rcases hfolder e he with ⟨n, rfl⟩
            simp [Effect.isAuthorizerCall, Effect.bearer?, hb]
          · cases he
            simp [Effect.isAuthorizerCall, Effect.bearer?, hb]
          · cases he
            simp [Effect.isAuthorizerCall, Effect.bearer?, hb]

theorem auth_delegation_witness :
    authDecision (some tokenAuth) = .resolved tokenAuth ∧
    authDecision (some { accessToken := none, configId := 1 }) =
      .authorize (.webFlow { accessToken := none, configId := 1 }) ∧
    authDecision none = .authorize (.getToken true) :=
  ⟨(auth_delegation arcInstance createOracles0 resource0 media0 tokenAuth (by decide)).1,
    (auth_delegation arcInstance createOracles0 resource0 media0 tokenAuth (by decide)).2.1
      { accessToken := none, configId := 1 } rfl,
    (auth_delegation arcInstance createOracles0 resource0 media0 tokenAuth (by decide)).2.2.1⟩

/-- C6: a parent entry already carrying a (truthy) id is accepted as-is:
`createParents` issues no folder-create HTTP call, consults no cache, adds
nothing to the cache, and returns the normalized entries unchanged — for any
number of repeated calls; in particular `createParents([{id:"f1"}], auth)`
performs zero HTTP calls (only the possible authorizer call) and returns
`[{id:"f1"}]`. -/
theorem idBearing_parents_no_create (az : AuthReq → AuthConf) (fid : Option String → String)
    (l : List ParentItem) (a : Option AuthConf)
    (hne : l ≠ [])
    (hids : ∀ p ∈ normalizeParents l, strTruthy p.id = true) :
    (createParentsOp az fid (some l) a).1 = .ok (normalizeParents l) ∧
    (createParentsOp az fid (some l) a).2.1 = [] ∧
    (createParentsOp az fid (some l) a).2.2.filter Effect.isHttp = [] ∧
    (∀ n, repeatedCreateParentsHttp az fid (some l) a n = []) ∧
    createParentsOp az fid (some [ParentItem.pobj none (some "f1")]) a =
      (.ok [{ name := none, id := some "f1" }], [], (resolveAuth az a).2) ∧
    (resolveAuth az a).2.filter Effect.isHttp = [] := by
  have hl : l.isEmpty = false := by
    cases l with
    | nil => exact absurd rfl hne
    | cons x xs => rfl
  have hmain : (createParentsOp az fid (some l) a).1 = .ok (normalizeParents l) ∧
      (createParentsOp az fid (some l) a).2.1 = [] ∧
      (createParentsOp az fid (some l) a).2.2.filter Effect.isHttp = [] := by
    rw [createParentsOp]
    cases hnl : (normalizeParents l).isEmpty with
    | true =>
      have : normalizeParents l = [] := by
        cases h2 : normalizeParents l with
        | nil => rfl
        | cons y ys => rw [h2] at hnl; exact absurd hnl (by simp)
      simp [hl, hnl, this]
    | false =>
      simp only [hl, Bool.false_eq_true, if_false, hnl,
        createParentsLoop_all_ids az fid _ _ [] hids, List.nil_append]
      refine ⟨trivial, trivial, ?_⟩
      rw [List.filter_append]
      simp [resolveAuth_effects_no_http az a]
  refine ⟨hmain.1, hmain.2.1, hmain.2.2, ?_, ?_, resolveAuth_effects_no_http az a⟩
  · intro n
    induction n with
    | zero => rfl
    | succ k ih => simp [repeatedCreateParentsHttp, hmain.2.2, ih]
  · rw [createParentsOp]
    have hnorm : normalizeParents [ParentItem.pobj none (some "f1")] =
        [{ name := none, id := some "f1" }] := by decide
    rw [hnorm]
    simp only [List.isEmpty_cons, Bool.false_eq_true, if_false]
    rw [createParentsLoop_all_ids az fid _ _ []
      (by intro p hp; simp at hp; subst hp; rfl)]
    simp

theorem idBearing_parents_no_create_witness :
    (createParentsOp az0 fid0 (some [ParentItem.pobj none (some "f1")]) (some tokenAuth)).1 =
      .ok [{ name := none, id := some "f1" }] ∧
    (createParentsOp az0 fid0 (some [ParentItem.pobj none (some "f1")])
        (some tokenAuth)).2.2.filter Effect.isHttp = [] :=
  ⟨(idBearing_parents_no_create az0 fid0 [ParentItem.pobj none (some "f1")] (some tokenAuth)
      (by decide) (by decide)).1,
    (idBearing_parents_no_create az0 fid0 [ParentItem.pobj none (some "f1")] (some tokenAuth)
      (by decide) (by decide)).2.2.1⟩

theorem applyDefaultMime_parents (inst : DriveExport) (r : Resource) :
    (applyDefaultMime inst r).parents = r.parents := by
  rw [applyDefaultMime]; split <;> rfl

theorem resolveAuth_effects_auth (az : AuthReq → AuthConf) (a : Option AuthConf) :
    ∀ e ∈ (resolveAuth az a).2, ∃ req, e = Effect.authorizerCall req := by
  intro e he
  rw [resolveAuth] at he
  rcases hd : authDecision a with c | req <;> simp only [hd] at he
  · simp at he
  · simp at he
    exact ⟨req, he⟩

theorem createParentsLoop_effects_kinds (az : AuthReq → AuthConf)
    (fid : Option String → String) (info : AuthConf) :
    ∀ (l acc : List NormParent), ∀ e ∈ (createParentsLoop az fid info l acc).2.2,
      e.isInitSession = false ∧ e.isUploadPut = false := by
  intro l
  induction l with
  | nil => intro acc e he; simp [createParentsLoop] at he
  | cons p rest ih =>
    intro acc e he
    cases hid : strTruthy p.id with
    | true =>
      rw [createParentsLoop] at he
      simp only [hid, if_true] at he
      exact ih _ e he
    | false =>
      rw [createParentsLoop] at he
      simp only [hid, Bool.false_eq_true, if_false, createFolderOp, List.append_assoc,
        List.mem_append, List.mem_singleton, List.mem_cons, List.not_mem_nil, or_false] at he
      rcases he with he | he | he
      · rcases resolveAuth_effects_auth az (some info) e he with ⟨req, rfl⟩
        exact ⟨rfl, rfl⟩
      · subst he
        exact ⟨rfl, rfl⟩
      · exact ih _ e he

theorem createParentsOp_effects_kinds (az : AuthReq → AuthConf)
    (fid : Option String → String) (parents : Option (List ParentItem)) (a : Option AuthConf) :
    ∀ e ∈ (createParentsOp az fid parents a).2.2,
      e.isInitSession = false ∧ e.isUploadPut = false := by
  intro e he
  rcases parents with _ | l
  · simp [createParentsOp] at he
  · rw [createParentsOp] at he
    cases hl : l.isEmpty with
    | true => simp only [hl, if_true] at he; simp at he
    | false =>
      cases hnl : (normalizeParents l).isEmpty with
      | true => simp only [hl, Bool.false_eq_true, if_false, hnl, if_true] at he; simp at he
      | false =>
        simp only [hl, hnl, Bool.false_eq_true, if_false, List.mem_append] at he
        rcases he with he | he
        · rcases resolveAuth_effects_auth az a e he with ⟨req, rfl⟩
          exact ⟨rfl, rfl⟩
        · exact createParentsLoop_effects_kinds az fid _ _ _ e he

theorem createParentsOp_ok (az : AuthReq → AuthConf) (fid : Option String → String)
    (l : List ParentItem) (a : Option AuthConf) (hne : l ≠ []) :
    ∃ pres, (createParentsOp az fid (some l) a).1 = .ok pres := by
  have hl : l.isEmpty = false := by
    cases l with
    | nil => exact absurd rfl hne
    | cons x xs => rfl
  rw [createParentsOp]
  cases hnl : (normalizeParents l).isEmpty with
  | true => exact ⟨[], by simp [hl, hnl]⟩
  | false =>
    refine ⟨(createParentsLoop az fid (resolveAuth az a).1 (normalizeParents l) []).1, ?_⟩
    simp [hl, hnl]

/-- C7: within one `create` call on a resource that carries parent references,
the effect trace ends with exactly the session-initialization request followed
by the upload PUT; every effect before them (authorizer calls and all
folder-resolution requests) is neither of those two, i.e. every
folder-resolution operation completes before session initialization is issued
and session initialization completes before the upload PUT; and the resource
sent at session-init time already carries the final resolved parent ids. -/
theorem create_ordering (inst : DriveExport) (o : CreateOracles) (r : Resource) (m : Media)
    (a : Option AuthConf) (pf : ParentsField) (url : Option String)
    (hp : r.parents = some pf) (hne : parentsItems pf ≠ [])
    (hinit : initSessionResult o.initResponse = .ok url) :
    ∃ pre r2 pres,
      (createOp inst o r m a).2.2 =
        pre ++
          [Effect.httpInitSession (bearerOf (resolveAuth o.authorizer a).1.accessToken) r2,
           Effect.httpUploadPut (bearerOf (resolveAuth o.authorizer a).1.accessToken) url
             m.body m.mimeType] ∧
      (∀ e ∈ pre, e.isInitSession = false ∧ e.isUploadPut = false) ∧
      (createParentsOp o.authorizer o.folderId (some (parentsItems pf))
        (some (resolveAuth o.authorizer a).1)).1 = .ok pres ∧
      r2.parents = (if pres.isEmpty then none
        else some (.ids (pres.map (fun p => p.id.getD "undefined")))) := by
  have hp1 : (applyDefaultMime inst r).parents = some pf := by
    rw [applyDefaultMime_parents, hp]
  have hlne : (parentsItems pf).isEmpty = false := by
    cases h2 : parentsItems pf with
    | nil => exact absurd h2 hne
    | cons x xs => rfl
  obtain ⟨pres, hpres⟩ := createParentsOp_ok o.authorizer o.folderId (parentsItems pf)
    (some (resolveAuth o.authorizer a).1) hne
  refine ⟨(resolveAuth o.authorizer a).2 ++
      (createParentsOp o.authorizer o.folderId (some (parentsItems pf))
        (some (resolveAuth o.authorizer a).1)).2.2,
    (if pres.isEmpty then { applyDefaultMime inst r with parents := none }
     else { applyDefaultMime inst r with
              parents := some (.ids (pres.map (fun p => p.id.getD "undefined"))) }),
    pres, ?_, ?_, hpres, ?_⟩
  · rw [createOp]
    simp only [hp1, hlne, Bool.false_eq_true, if_false, hpres, hinit, List.append_assoc]
  · intro e he
    rcases List.mem_append.mp he with he | he
    · rcases resolveAuth_effects_auth o.authorizer a e he with ⟨req, rfl⟩
      exact ⟨rfl, rfl⟩
    · exact createParentsOp_effects_kinds o.authorizer o.folderId _ _ e he
  · by_cases hc : pres.isEmpty <;> simp [hc]

theorem create_ordering_witness :
    ∃ pre r2 pres,
      (createOp arcInstance createOracles0 resource0 media0 (some tokenAuth)).2.2 =
        pre ++
          [Effect.httpInitSession
             (bearerOf (resolveAuth createOracles0.authorizer (some tokenAuth)).1.accessToken)
             r2,
           Effect.httpUploadPut
             (bearerOf (resolveAuth createOracles0.authorizer (some tokenAuth)).1.accessToken)
             (some "https://upload.example/u") media0.body media0.mimeType] ∧
      (∀ e ∈ pre, e.isInitSession = false ∧ e.isUploadPut = false) ∧
      (createParentsOp createOracles0.authorizer createOracles0.folderId
        (some (parentsItems (.raw [.pobj (some "Projects") none])))
        (some (resolveAuth createOracles0.authorizer (some tokenAuth)).1)).1 = .ok pres ∧
      r2.parents = (if pres.isEmpty then none
        else some (.ids (pres.map (fun p => p.id.getD "undefined")))) :=
  create_ordering arcInstance createOracles0 resource0 media0 (some tokenAuth)
    (.raw [.pobj (some "Projects") none]) (some "https://upload.example/u") rfl
    (by decide) rfl

/-- C8: once `this.cachedFolders` is populated, the handler answers from the
cache with no authorizer and no network interaction, regardless of the
`interactive` option; in particular a second invocation after a first
successful one (any `interactive` values, any oracle freshness) returns the
identical cached folder list with an empty effect trace and leaves the state
unchanged. -/
theorem listAppFolders_cached (o o2 : ListOracles) (s : FoldersState) (f : List Folder)
    (opts opts2 : Option ListOpts) :
    (s.cachedFolders = some f →
      listAppFoldersHandler o s opts = (s, [], .result f)) ∧
    ((listAppFoldersHandler o s opts).2.2 = .result f →
      listAppFoldersHandler o2 (listAppFoldersHandler o s opts).1 opts2 =
        ((listAppFoldersHandler o s opts).1, [], .result f)) := by
  constructor
  · intro h
    simp [listAppFoldersHandler, h]
  · intro h
    rcases hc : s.cachedFolders with _ | cached
    case some =>
      have h1 : listAppFoldersHandler o s opts = (s, [], .result cached) := by
        simp [listAppFoldersHandler, hc]
      rw [h1] at h ⊢
      simp only at h
      injection h with h2
      subst h2
      simp [listAppFoldersHandler, hc]
    case none =>
      rw [listAppFoldersHandler] at h
      simp only [hc] at h
      rcases hg : o.getToken (listInteractive opts) with _ | auth
      · rw [hg] at h
        simp at h
      · rw [hg] at h
        rcases hlr : o.listResult with msg | body
        · rw [hlr] at h
          simp at h
        · rw [hlr] at h
          simp only at h
          injection h with h2
          have h1 : (listAppFoldersHandler o s opts).1 =
              { cachedFolders :=
                  some ((body.files.getD []).map
                    (fun x => ({ id := x.id, name := x.name } : Folder))) } := by
            rw [listAppFoldersHandler]
            simp only [hc, hg, hlr]
          rw [h1]
          simp [listAppFoldersHandler, h2]

theorem listAppFolders_cached_witness :
    listAppFoldersHandler listOracles0
        (listAppFoldersHandler listOracles0 { cachedFolders := none }
          (some { interactive := some false })).1
        (some { interactive := some true }) =
      ((listAppFoldersHandler listOracles0 { cachedFolders := none }
          (some { interactive := some false })).1, [],
        .result [{ id := some "a", name := some "N" }]) :=
  (listAppFolders_cached listOracles0 listOracles0 { cachedFolders := none }
    [{ id := some "a", name := some "N" }] (some { interactive := some false })
    (some { interactive := some true })).2 (by decide)

/-! ## Helper lemmas for the heap model -/

theorem Heap.setArr_objs (h : Heap) (r : Ref) (l : List HElem) :
    (h.setArr r l).objs = h.objs := rfl

theorem Heap.setArr_arrs_self (h : Heap) (r : Ref) (l : List HElem) :
    (h.setArr r l).arrs r = some l := by simp [Heap.setArr]

theorem Heap.setArr_arrs_other (h : Heap) (r : Ref) (l : List HElem) (a2 : Ref)
    (hne : a2 ≠ r) : (h.setArr r l).arrs a2 = h.arrs a2 := by simp [Heap.setArr, hne]

theorem Heap.setArr_cached (h : Heap) (r : Ref) (l : List HElem) :
    (h.setArr r l).cachedFolders = h.cachedFolders := rfl

theorem Heap.setObj_objs_self (h : Heap) (r : Ref) (o : HObj) :
    (h.setObj r o).objs r = some o := by simp [Heap.setObj]

theorem Heap.setObj_objs_other (h : Heap) (r : Ref) (o : HObj) (r2 : Ref) (hne : r2 ≠ r) :
    (h.setObj r o).objs r2 = h.objs r2 := by simp [Heap.setObj, hne]

theorem Heap.setObj_arrs (h : Heap) (r : Ref) (o : HObj) :
    (h.setObj r o).arrs = h.arrs := rfl

theorem Heap.setObj_cached (h : Heap) (r : Ref) (o : HObj) :
    (h.setObj r o).cachedFolders = h.cachedFolders := rfl

theorem pushCache_objs (h : Heap) (e : HElem) : (pushCache h e).objs = h.objs := rfl

theorem pushCache_arrs (h : Heap) (e : HElem) : (pushCache h e).arrs = h.arrs := rfl

theorem pushCache_cached (h : Heap) (e : HElem) :
    (pushCache h e).cachedFolders = some (h.cachedFolders.getD [] ++ [e]) := rfl

theorem isCreatedEntry_eq_of_objs (h1 h2 : Heap) (e : HElem)
    (hobjs : ∀ r, HElem.ref? e = some r → h1.objs r = h2.objs r) :
    isCreatedEntry h1 e = isCreatedEntry h2 e := by
  cases e with
  | estr s => rfl
  | eref r =>
    simp only [isCreatedEntry]
    rw [hobjs r rfl]

/-- The full characterization of one `_createParents` run over an array of
live, distinct object references: the array is drained, the result is exactly
the input entries (the same references, in order), id-less objects get the
created folder id written into them, everything else in the heap is untouched,
and the cache is extended by exactly the id-less entries (again the same
references). -/
theorem createParentsH_spec (fid : Option String → String) :
    ∀ (elems : List HElem) (h : Heap) (arrRef : Ref) (acc : List HElem),
      h.arrs arrRef = some elems →
      (∀ e ∈ elems, ∃ r p, e = HElem.eref r ∧ h.objs r = some p) →
      (elems.filterMap HElem.ref?).Nodup →
      ∀ h' res, createParentsH fid h arrRef acc elems.length = (h', res) →
        (res = acc ++ elems ∧
         h'.arrs arrRef = some [] ∧
         (∀ a2, a2 ≠ arrRef → h'.arrs a2 = h.arrs a2) ∧
         (∀ r p, HElem.eref r ∈ elems → h.objs r = some p →
           h'.objs r = some (if strTruthy p.id then p
             else { p with id := some (fid p.name) })) ∧
         (∀ r, HElem.eref r ∉ elems → h'.objs r = h.objs r) ∧
         h'.cachedFolders =
           (if elems.filter (isCreatedEntry h) = [] then h.cachedFolders
            else some (h.cachedFolders.getD [] ++ elems.filter (isCreatedEntry h)))) := by
  intro elems
  induction elems with
  | nil =>
    intro h arrRef acc harr _ _ h' res hrun
    simp only [List.length_nil, createParentsH] at hrun
    injection hrun with h1 h2
    subst h1; subst h2
    refine ⟨by simp, harr, fun _ _ => rfl, ?_, fun _ _ => rfl, by simp⟩
    intro r p hmem
    simp at hmem
  | cons e rest ih =>
    intro h arrRef acc harr hlive hnd h' res hrun
    obtain ⟨r, p, rfl, hpr⟩ := hlive _ (List.mem_cons_self _ _)
    have hnd2 : ((HElem.eref r :: rest).filterMap HElem.ref?).Nodup := hnd
    simp only [List.filterMap_cons, HElem.ref?] at hnd2
    have hrnota : r ∉ rest.filterMap HElem.ref? := (List.nodup_cons.mp hnd2).1
    have hnd' : (rest.filterMap HElem.ref?).Nodup := (List.nodup_cons.mp hnd2).2
    have herefnot : HElem.eref r ∉ rest := fun hmem =>
      hrnota (List.mem_filterMap.mpr ⟨_, hmem, rfl⟩)
    rw [List.length_cons, createParentsH] at hrun
    simp only [harr, Heap.setArr_objs, hpr] at hrun
    cases hid : strTruthy p.id with
    | true =>
      simp only [hid, if_true] at hrun
      have hcreated : isCreatedEntry h (HElem.eref r) = false := by
        simp [isCreatedEntry, hpr, hid]
      obtain ⟨hres, harr', hframe, hobjs4, hobjs5, hcache⟩ :=
        ih (h.setArr arrRef rest) arrRef (acc ++ [HElem.eref r])
          (Heap.setArr_arrs_self h arrRef rest)
          (fun e' he' => by
            obtain ⟨r', p', rfl, hp'⟩ := hlive e' (List.mem_cons_of_mem _ he')
            exact ⟨r', p', rfl, hp'⟩)
          hnd' h' res hrun
      have hiceq : isCreatedEntry (h.setArr arrRef rest) = isCreatedEntry h := by
        funext x
        exact isCreatedEntry_eq_of_objs _ _ x (fun _ _ => rfl)
      refine ⟨by rw [hres]; simp, harr', ?_, ?_, ?_, ?_⟩
      · intro a2 ha2
        rw [hframe a2 ha2, Heap.setArr_arrs_other h arrRef rest a2 ha2]
      · intro r' p' hmem hp'
        rcases List.mem_cons.mp hmem with heq | hmem'
        · injection heq with hr'
          rw [hr'] at hp' ⊢
          have hpp : p' = p := by rw [hpr] at hp'; exact (Option.some.inj hp').symm
          rw [hpp, hobjs5 r herefnot, Heap.setArr_objs, hpr, if_pos hid]
        · exact hobjs4 r' p' hmem' hp'
      · intro r' hnot
        rw [hobjs5 r' (fun hm => hnot (List.mem_cons_of_mem _ hm)), Heap.setArr_objs]
      · rw [hcache, hiceq, Heap.setArr_cached,
          List.filter_cons_of_neg (by simp [hcreated])]
    | false =>
      simp only [hid, Bool.false_eq_true, if_false] at hrun
      have hcreated : isCreatedEntry h (HElem.eref r) = true := by
        simp [isCreatedEntry, hpr, hid]
      obtain ⟨hres, harr', hframe, hobjs4, hobjs5, hcache⟩ :=
        ih (pushCache ((h.setArr arrRef rest).setObj r { p with id := some (fid p.name) })
            (HElem.eref r)) arrRef (acc ++ [HElem.eref r])
          (by rw [pushCache_arrs, Heap.setObj_arrs]; exact Heap.setArr_arrs_self h arrRef rest)
          (fun e' he' => by
            obtain ⟨r', p', rfl, hp'⟩ := hlive e' (List.mem_cons_of_mem _ he')
            have hr'ne : r' ≠ r := fun hrr => by
              subst hrr
              exact herefnot he'
            refine ⟨r', p', rfl, ?_⟩
            rw [pushCache_objs, Heap.setObj_objs_other _ _ _ _ hr'ne, Heap.setArr_objs]
            exact hp')
          hnd' h' res hrun
      have hfeq : rest.filter (isCreatedEntry (pushCache
          ((h.setArr arrRef rest).setObj r { p with id := some (fid p.name) })
          (HElem.eref r))) = rest.filter (isCreatedEntry h) := by
        refine List.filter_congr ?_
        intro x hx
        refine isCreatedEntry_eq_of_objs _ _ x ?_
        intro rx hrx
        have hrxne : rx ≠ r := by
          intro hrr
          subst hrr
          cases x with
          | estr s => simp [HElem.ref?] at hrx
          | eref rz =>
            simp only [HElem.ref?, Option.some.injEq] at hrx
            subst hrx
            exact herefnot hx
        rw [pushCache_objs, Heap.setObj_objs_other _ _ _ _ hrxne, Heap.setArr_objs]
      refine ⟨by rw [hres]; simp, harr', ?_, ?_, ?_, ?_⟩
      · intro a2 ha2
        rw [hframe a2 ha2, pushCache_arrs, Heap.setObj_arrs,
          Heap.setArr_arrs_other h arrRef rest a2 ha2]
      · intro r' p' hmem hp'
        rcases List.mem_cons.mp hmem with heq | hmem'
        · injection heq with hr'
          rw [hr'] at hp' ⊢
          have hpp : p' = p := by rw [hpr] at hp'; exact (Option.some.inj hp').symm
          rw [hpp, hobjs5 r herefnot, pushCache_objs, Heap.setObj_objs_self, if_neg]
          simp [hid]
        · have hr'ne : r' ≠ r := by
            intro hrr
            subst hrr
            exact herefnot hmem'
          have : (pushCache ((h.setArr arrRef rest).setObj r
              { p with id := some (fid p.name) }) (HElem.eref r)).objs r' = some p' := by
            rw [pushCache_objs, Heap.setObj_objs_other _ _ _ _ hr'ne, Heap.setArr_objs]
            exact hp'
          exact hobjs4 r' p' hmem' this
      · intro r' hnot
        have hr'ne : r' ≠ r := by
          intro hrr
          subst hrr
          exact hnot (List.mem_cons_self _ _)
        rw [hobjs5 r' (fun hm => hnot (List.mem_cons_of_mem _ hm)), pushCache_objs,
          Heap.setObj_objs_other _ _ _ _ hr'ne, Heap.setArr_objs]
      · rw [hcache, hfeq, List.filter_cons_of_pos hcreated, pushCache_cached,
          Heap.setObj_cached, Heap.setArr_cached]
        by_cases hF : rest.filter (isCreatedEntry h) = []
        · simp [hF]
        · rw [if_neg hF, if_neg (List.cons_ne_nil _ _)]
          simp

/-- C10: the request-construction helpers mutate the caller's objects in
place: `_createResource` writes the defaulted `description` and `mimeType`
into the caller's meta object at its own reference and returns that same
reference; the `resource.parents` rewrite inside `create` overwrites the
field of the caller's resource object with the resolved id strings (or
deletes it when resolution yields nothing); and `_createParents`
destructively drains its input array via `shift`, assigns the created id into
each caller-supplied parent object, and the very same references make up both
the returned result and the folder-cache extension. -/
theorem in_place_mutation :
    (∀ (inst : DriveExport) (h : Heap) (r : Ref) (o : HObj) (typ : Option String),
      h.objs r = some o →
      (createResourceH inst h (some r) typ).2 = r ∧
      (createResourceH inst h (some r) typ).1.objs r = some (resourceDefaults inst typ o) ∧
      (∀ r2, r2 ≠ r → (createResourceH inst h (some r) typ).1.objs r2 = h.objs r2)) ∧
    (∀ (h : Heap) (rr : Ref) (o : HObj) (cp : List HElem),
      h.objs rr = some o →
      (cp = [] → (updateParentsField h rr cp).objs rr = some { o with parents := none }) ∧
      (cp ≠ [] → (updateParentsField h rr cp).objs rr =
        some { o with parents := some (.idList (cp.map (elemId h))) })) ∧
    (∀ (fid : Option String → String) (h : Heap) (arrRef : Ref) (elems : List HElem),
      h.arrs arrRef = some elems →
      (∀ e ∈ elems, ∃ r p, e = HElem.eref r ∧ h.objs r = some p) →
      (elems.filterMap HElem.ref?).Nodup →
      (createParentsHRun fid h arrRef).2 = elems ∧
      (createParentsHRun fid h arrRef).1.arrs arrRef = some [] ∧
      (∀ r p, HElem.eref r ∈ elems → h.objs r = some p →
        (createParentsHRun fid h arrRef).1.objs r =
          some (if strTruthy p.id then p else { p with id := some (fid p.name) })) ∧
      (createParentsHRun fid h arrRef).1.cachedFolders =
        (if elems.filter (isCreatedEntry h) = [] then h.cachedFolders
         else some (h.cachedFolders.getD [] ++ elems.filter (isCreatedEntry h))) ∧
      (∀ e ∈ elems.filter (isCreatedEntry h), e ∈ (createParentsHRun fid h arrRef).2)) := by
  refine ⟨?_, ?_, ?_⟩
  · intro inst h r o typ ho
    simp only [createResourceH, ho]
    exact ⟨trivial, Heap.setObj_objs_self h r _,
      fun r2 h2 => Heap.setObj_objs_other h r _ r2 h2⟩
  · intro h rr o cp ho
    constructor
    · intro hcp
      subst hcp
      simp only [updateParentsField, ho, List.isEmpty_nil, if_true]
      exact Heap.setObj_objs_self h rr _
    · intro hcp
      have hne : cp.isEmpty = false := by
        cases cp with
        | nil => exact absurd rfl hcp
        | cons x xs => rfl
      simp only [updateParentsField, ho, hne, Bool.false_eq_true, if_false]
      exact Heap.setObj_objs_self h rr _
  · intro fid h arrRef elems harr hlive hnd
    have hrw : createParentsHRun fid h arrRef =
        createParentsH fid h arrRef [] elems.length := by
      rw [createParentsHRun, harr]
      rfl
    rcases hX : createParentsH fid h arrRef [] elems.length with ⟨h', res⟩
    obtain ⟨hres, harr', _, hobjs4, _, hcache⟩ :=
      createParentsH_spec fid elems h arrRef [] harr hlive hnd h' res hX
    rw [hrw, hX]
    simp only [List.nil_append] at hres
    refine ⟨hres, harr', fun r p hm hp => hobjs4 r p hm hp, hcache, ?_⟩
    intro e he
    rw [hres]
    exact List.mem_of_mem_filter he

theorem in_place_mutation_witness :
    (createResourceH arcInstance heap0 (some 0) none).2 = 0 ∧
    (createResourceH arcInstance heap0 (some 0) none).1.objs 0 =
      some (resourceDefaults arcInstance none res0Obj) ∧
    (updateParentsField heap0 0 []).objs 0 = some { res0Obj with parents := none } ∧
    (updateParentsField heap0 0 [.eref 1]).objs 0 =
      some { res0Obj with parents := some (.idList [elemId heap0 (.eref 1)]) } ∧
    (createParentsHRun fid0 heap0 10).2 = [.eref 1, .eref 2] ∧
    (createParentsHRun fid0 heap0 10).1.arrs 10 = some [] ∧
    (createParentsHRun fid0 heap0 10).1.objs 2 =
      some (if strTruthy p2Obj.id then p2Obj
        else { p2Obj with id := some (fid0 p2Obj.name) }) ∧
    (createParentsHRun fid0 heap0 10).1.cachedFolders =
      (if [HElem.eref 1, HElem.eref 2].filter (isCreatedEntry heap0) = []
       then heap0.cachedFolders
       else some (heap0.cachedFolders.getD [] ++
         [HElem.eref 1, HElem.eref 2].filter (isCreatedEntry heap0))) := by
  have hlive : ∀ e ∈ [HElem.eref 1, HElem.eref 2],
      ∃ r p, e = HElem.eref r ∧ heap0.objs r = some p := by
    intro e he
    rcases List.mem_cons.mp he with h1 | h2
    · exact ⟨1, p1Obj, h1, rfl⟩
    · rcases List.mem_cons.mp h2 with h3 | h4
      · exact ⟨2, p2Obj, h3, rfl⟩
      · exact absurd h4 (List.not_mem_nil e)
  refine ⟨(in_place_mutation.1 arcInstance heap0 0 res0Obj none rfl).1,
    (in_place_mutation.1 arcInstance heap0 0 res0Obj none rfl).2.1,
    (in_place_mutation.2.1 heap0 0 res0Obj [] rfl).1 rfl,
    (in_place_mutation.2.1 heap0 0 res0Obj [.eref 1] rfl).2 (by simp),
    (in_place_mutation.2.2 fid0 heap0 10 [.eref 1, .eref 2] rfl hlive (by decide)).1,
    (in_place_mutation.2.2 fid0 heap0 10 [.eref 1, .eref 2] rfl hlive (by decide)).2.1,
    (in_place_mutation.2.2 fid0 heap0 10 [.eref 1, .eref 2] rfl hlive (by decide)).2.2.1
      2 p2Obj (by decide) rfl,
    (in_place_mutation.2.2 fid0 heap0 10 [.eref 1, .eref 2] rfl hlive (by decide)).2.2.2.1⟩

end ElectronDrive
